import Mathlib

/-!
# Sledge serverless runtime: scheduling and preemption core

A shallow embedding of

* `runtime/include/software_interrupt.h` (critical sections),
* `runtime/src/sandbox_request_scheduler_ps.c` (global admission scheduler),
* `runtime/src/main.c` (startup),
* `runtime/include/worker_thread.h` (linear-memory string lookup),

followed by the properties established about them.

Conventions.  C `int` / `sig_atomic_t` values are `Int`, unsigned values are `Nat`
reduced `% 2 ^ 32` where the C type is `uint32_t`.  A C function that can halt the
process returns an `Outcome` that records the state at the halt.  Nullable
pointers are `Option` values, `none` being `NULL`.
-/

namespace Sledge

/-! ## Definitions: software interrupts (`software_interrupt.h`) -/

/-- How a call of a `void` C function ends: it returns; it halts the process through
`panic(msg)` (the macro of `panic.h`, which prints the message and ends the process), through
a failed `assert(expr)`, or through `exit(code)`; or it performs an out-of-bounds array
store or a library call with an argument the library does not accept (both undefined in C;
the process goes no further).  Each alternative carries the state reached. -/
inductive Outcome (σ : Type) where
  | returned (s : σ)
  | panicked (msg : String) (s : σ)
  | assertion_failed (expr : String) (s : σ)
  | exited (code : Int) (s : σ)
  | out_of_bounds (s : σ)
  | undefined_call (call : String) (s : σ)
  deriving DecidableEq, Repr

/-- The state an outcome carries. -/
def Outcome.state {σ : Type} : Outcome σ → σ
  | .returned s => s
  | .panicked _ s => s
  | .assertion_failed _ s => s
  | .exited _ s => s
  | .out_of_bounds s => s
  | .undefined_call _ s => s

/-- Whether the call returned to its caller. -/
def Outcome.completes {σ : Type} : Outcome σ → Bool
  | .returned _ => true
  | _ => false

/-- The variables `software_interrupt.h` declares `extern`, as seen by one thread:
`software_interrupt_is_disabled`, `software_interrupt_deferred_sigalrm`,
`software_interrupt_deferred_sigalrm_max[RUNTIME_WORKER_THREAD_CORE_COUNT]` (the list
length is the array length) and `worker_thread_idx` (a C `int`). -/
structure InterruptState where
  software_interrupt_is_disabled : Int
  software_interrupt_deferred_sigalrm : Int
  software_interrupt_deferred_sigalrm_max : List Int
  worker_thread_idx : Int
  deriving DecidableEq, Repr

/-- The builtin `__sync_bool_compare_and_swap(ptr, oldval, newval)` on a cell holding `cur`:
the success flag and the new content of the cell. -/
def sync_bool_compare_and_swap (cur oldval newval : Int) : Bool × Int :=
  if cur = oldval then (true, newval) else (false, cur)

/-- The function `software_interrupt_disable` (lines 28-34). -/
def software_interrupt_disable (s : InterruptState) : Outcome InterruptState :=
  match sync_bool_compare_and_swap s.software_interrupt_is_disabled 0 1 with
  | (false, v) =>
    .panicked "Recursive call to software_interrupt_disable\n"
      { s with software_interrupt_is_disabled := v }
  | (true, v) => .returned { s with software_interrupt_is_disabled := v }

/-- The function `software_interrupt_enable` (lines 39-52).  The store into
`software_interrupt_deferred_sigalrm_max[worker_thread_idx]` is unconditional, as in the
source; an index outside the array is reported as `out_of_bounds`. -/
def software_interrupt_enable (s : InterruptState) : Outcome InterruptState :=
  match sync_bool_compare_and_swap s.software_interrupt_is_disabled 1 0 with
  | (false, v) =>
    .panicked "Recursive call to software_interrupt_enable\n"
      { s with software_interrupt_is_disabled := v }
  | (true, v) =>
    let s1 := { s with software_interrupt_is_disabled := v }
    if s1.software_interrupt_deferred_sigalrm > 0 then
      if 0 ≤ s1.worker_thread_idx ∧
          s1.worker_thread_idx.toNat < s1.software_interrupt_deferred_sigalrm_max.length then
        .returned
          { s1 with
            software_interrupt_deferred_sigalrm_max :=
              s1.software_interrupt_deferred_sigalrm_max.set s1.worker_thread_idx.toNat
                s1.software_interrupt_deferred_sigalrm
            software_interrupt_deferred_sigalrm := 0 }
      else .out_of_bounds s1
    else .returned s1

/-- The function `software_interrupt_is_enabled` (lines 57-61): the C truth value of
`software_interrupt_is_disabled == 0`. -/
def software_interrupt_is_enabled (s : InterruptState) : Int :=
  if s.software_interrupt_is_disabled = 0 then 1 else 0

/-- The slot `software_interrupt_deferred_sigalrm_max[worker_thread_idx]`, when the index
lies inside the array. -/
def InterruptState.deferred_max_slot (s : InterruptState) : Option Int :=
  if 0 ≤ s.worker_thread_idx then
    s.software_interrupt_deferred_sigalrm_max[s.worker_thread_idx.toNat]?
  else none

/-- The thread's `worker_thread_idx` names a slot of the array. -/
def InterruptState.idx_in_bounds (s : InterruptState) : Prop :=
  0 ≤ s.worker_thread_idx ∧
    s.worker_thread_idx.toNat < s.software_interrupt_deferred_sigalrm_max.length

instance (s : InterruptState) : Decidable s.idx_in_bounds := by
  unfold InterruptState.idx_in_bounds; infer_instance

/-- A call a thread can make on its interrupt state. -/
inductive InterruptCall where
  | disable
  | enable
  deriving DecidableEq, Repr

/-- Run one call. -/
def InterruptCall.run : InterruptCall → InterruptState → Outcome InterruptState
  | .disable, s => software_interrupt_disable s
  | .enable, s => software_interrupt_enable s

/-- Every state a thread passes through while it makes the calls in order, the starting
state first; the process stops at the first call that does not return. -/
def interrupt_states : List InterruptCall → InterruptState → List InterruptState
  | [], s => [s]
  | c :: cs, s =>
    match c.run s with
    | .returned s1 => s :: interrupt_states cs s1
    | o => [s, o.state]

/-! ## Definitions: global admission scheduler (`sandbox_request_scheduler_ps.c`) -/

/-- The request a non-NULL `sandbox_request_t *` points to.  `sandbox_request.h` is not
among the sources; the only field this file reads is `absolute_deadline` (an unsigned
64-bit value).  `address` stands for the identity of the pointer. -/
structure sandbox_request_t where
  address : Nat
  absolute_deadline : Nat
  deriving DecidableEq, Repr

/-- Modelled from the spec: the priority queue of `priority_queue.h`, which is not among the
sources.  The spec describes a bounded ordered container of opaque elements with a
caller-supplied priority function recorded at initialization; smaller priority means more
urgent.  `items` lists the elements present, oldest first. -/
structure priority_queue (α : Type) where
  capacity : Nat
  get_priority : α → Nat
  items : List α

/-- Modelled from the spec: `initialize` "allocates storage; records the function".  The
capacity is a build-time constant of the missing header and is passed in. -/
def priority_queue_initialize {α : Type} (capacity : Nat) (get_priority : α → Nat) :
    priority_queue α :=
  { capacity := capacity, get_priority := get_priority, items := [] }

/-- Modelled from the spec: `enqueue` "inserts elem; fails with QUEUE_FULL if capacity
reached", and "Enqueue to full queue returns failure; state unchanged".  Return code 0 is
success, -1 the failure. -/
def priority_queue_enqueue {α : Type} (pq : priority_queue α) (elem : α) :
    Int × priority_queue α :=
  if pq.capacity ≤ pq.items.length then (-1, pq)
  else (0, { pq with items := pq.items ++ [elem] })

/-- An element of least priority in a list (the oldest such), `none` for the empty list. -/
def priority_queue_minimum {α : Type} (get_priority : α → Nat) : List α → Option α
  | [] => none
  | x :: xs =>
    match priority_queue_minimum get_priority xs with
    | none => some x
    | some y => if get_priority x ≤ get_priority y then some x else some y

/-- Modelled from the spec: `dequeue` "removes and returns the minimum-priority element, or
fails with QUEUE_EMPTY"; the failure is the `NULL` result. -/
def priority_queue_dequeue {α : Type} [DecidableEq α] (pq : priority_queue α) :
    Option α × priority_queue α :=
  match priority_queue_minimum pq.get_priority pq.items with
  | none => (none, pq)
  | some x => (some x, { pq with items := pq.items.erase x })

/-- The function `sandbox_request_scheduler_ps_add` (lines 12-18), for a non-NULL request,
over any queue type `Q` and any `priority_queue_enqueue` returning a code and the queue it
leaves.  The result is the returned pointer and the queue. -/
def sandbox_request_scheduler_ps_add {Q : Type}
    (enqueue : Q → sandbox_request_t → Int × Q) (sandbox_request_scheduler_ps : Q)
    (sandbox_request_raw : sandbox_request_t) : Option sandbox_request_t × Q :=
  let (return_code, q1) := enqueue sandbox_request_scheduler_ps sandbox_request_raw
  (if return_code = 0 then some sandbox_request_raw else none, q1)

/-- The function `sandbox_request_scheduler_ps_remove` (lines 24-28): the result of
`priority_queue_dequeue`, cast. -/
def sandbox_request_scheduler_ps_remove {Q : Type}
    (dequeue : Q → Option sandbox_request_t × Q) (sandbox_request_scheduler_ps : Q) :
    Option sandbox_request_t × Q :=
  dequeue sandbox_request_scheduler_ps

/-- The function `sandbox_request_get_priority` (lines 30-35). -/
def sandbox_request_get_priority (element : sandbox_request_t) : Nat :=
  element.absolute_deadline

/-- The function `sandbox_request_scheduler_ps_initialize` (lines 41-52): the static queue
after `priority_queue_initialize(&sandbox_request_scheduler_ps,
sandbox_request_get_priority)`. -/
def sandbox_request_scheduler_ps_initialize (capacity : Nat) :
    priority_queue sandbox_request_t :=
  priority_queue_initialize capacity sandbox_request_get_priority

/-- A call through the scheduler interface registered by
`sandbox_request_scheduler_ps_initialize`. -/
inductive SchedulerCall where
  | add (req : sandbox_request_t)
  | remove
  deriving DecidableEq, Repr

/-- The static queue after a call, on the priority queue modelled above. -/
def SchedulerCall.run (q : priority_queue sandbox_request_t) :
    SchedulerCall → priority_queue sandbox_request_t
  | .add req => (sandbox_request_scheduler_ps_add priority_queue_enqueue q req).2
  | .remove => (sandbox_request_scheduler_ps_remove priority_queue_dequeue q).2

/-- The static queue after a sequence of calls. -/
def scheduler_run (q : priority_queue sandbox_request_t) (calls : List SchedulerCall) :
    priority_queue sandbox_request_t :=
  calls.foldl SchedulerCall.run q

/-- The pointers returned by `n` successive calls of `remove`. -/
def scheduler_remove_many :
    Nat → priority_queue sandbox_request_t → List (Option sandbox_request_t)
  | 0, _ => []
  | n + 1, q =>
    let r := sandbox_request_scheduler_ps_remove priority_queue_dequeue q
    r.1 :: scheduler_remove_many n r.2

/-! ## Definitions: startup (`main.c`) -/

/-- The values of `enum RUNTIME_SCHEDULER` (`runtime.h`) that `main.c` uses. -/
inductive RUNTIME_SCHEDULER where
  | RUNTIME_SCHEDULER_FIFO
  | RUNTIME_SCHEDULER_EDF
  deriving DecidableEq, Repr

/-- The globals of `main.c` that startup writes.  `runtime_processor_speed_MHz` is a C
`float`; it is kept as the rational number it denotes. -/
structure RuntimeState where
  runtime_processor_speed_MHz : ℚ
  runtime_total_online_processors : Nat
  runtime_worker_threads_count : Nat
  runtime_first_worker_processor : Nat
  runtime_scheduler : RUNTIME_SCHEDULER
  deriving DecidableEq, Repr

/-- The initializers of the globals (lines 24-31). -/
def RuntimeState.initial : RuntimeState :=
  { runtime_processor_speed_MHz := 0
    runtime_total_online_processors := 0
    runtime_worker_threads_count := 0
    runtime_first_worker_processor := 0
    runtime_scheduler := .RUNTIME_SCHEDULER_FIFO }

/-- The libc function `strcmp` on the characters two C strings hold before their
terminators: zero when they agree, otherwise the difference at the first position where
they differ (a missing character counts as the terminator, 0). -/
def strcmp : List Char → List Char → Int
  | [], [] => 0
  | [], b :: _ => 0 - (b.toNat : Int)
  | a :: _, [] => (a.toNat : Int) - 0
  | a :: as, b :: bs => if a = b then strcmp as bs else (a.toNat : Int) - (b.toNat : Int)

/-- The function `runtime_allocate_available_cores` (lines 74-94).  `WORKER_THREAD_CORE_COUNT`
is a macro of a header that is not among the sources and is passed in;
`sysconf_nprocessors_onln` is what `sysconf(_SC_NPROCESSORS_ONLN)` returns, stored into a
`uint32_t`.  `NDEBUG` tells whether the build defines that macro, which turns the `assert`
of line 89 into nothing; the build flags are not among the sources. -/
def runtime_allocate_available_cores (NDEBUG : Bool) (WORKER_THREAD_CORE_COUNT : Nat)
    (sysconf_nprocessors_onln : Int) (st : RuntimeState) : Outcome RuntimeState :=
  let st1 := { st with
    runtime_total_online_processors := (sysconf_nprocessors_onln % 2 ^ 32).toNat }
  if st1.runtime_total_online_processors < 2 then
    .panicked "Runtime requires at least two cores!" st1
  else
    let st2 := { st1 with runtime_first_worker_processor := 1 }
    let max_possible_workers := st2.runtime_total_online_processors - 1
    let st3 := { st2 with runtime_worker_threads_count := max_possible_workers }
    let st4 :=
      if max_possible_workers ≥ WORKER_THREAD_CORE_COUNT then
        { st3 with runtime_worker_threads_count := WORKER_THREAD_CORE_COUNT }
      else st3
    if NDEBUG = true ∨ st4.runtime_worker_threads_count = WORKER_THREAD_CORE_COUNT then
      .returned st4
    else .assertion_failed "runtime_worker_threads_count == WORKER_THREAD_CORE_COUNT" st4

/-- The processors that the first loop of `runtime_start_runtime_worker_threads`
(lines 158-172) puts into the affinity set of worker threads 0, 1, ...:
`runtime_first_worker_processor + i`, an unsigned 32-bit sum. -/
def runtime_worker_thread_processors (st : RuntimeState) : List Nat :=
  (List.range st.runtime_worker_threads_count).map
    (fun i => (st.runtime_first_worker_processor + i) % 2 ^ 32)

/-- The function `runtime_configure` (lines 187-201); `getenv_SLEDGE_SCHEDULER` is what
`getenv("SLEDGE_SCHEDULER")` returns, `none` for `NULL`. -/
def runtime_configure (getenv_SLEDGE_SCHEDULER : Option String) (st : RuntimeState) :
    Outcome RuntimeState :=
  let scheduler_policy : String :=
    match getenv_SLEDGE_SCHEDULER with
    | none => "FIFO"
    | some v => v
  if strcmp scheduler_policy.data "EDF".data = 0 then
    .returned { st with runtime_scheduler := .RUNTIME_SCHEDULER_EDF }
  else if strcmp scheduler_policy.data "FIFO".data = 0 then
    .returned { st with runtime_scheduler := .RUNTIME_SCHEDULER_FIFO }
  else
    .panicked ("Invalid scheduler policy: " ++ scheduler_policy ++ ". Must be \x7bEDF|FIFO\x7d\n")
      st

/-- What the calls inside `runtime_get_processor_speed_MHz` give: `popen_output` is `none`
when `popen` returns `NULL`, otherwise the bytes the command writes; `sscanf_f buff` is the
number `sscanf(buff, "%f", ...)` stores when it returns 1, `none` when it returns anything
else. -/
structure ProcessorSpeedProbe where
  popen_output : Option (List Char)
  sscanf_f : List Char → Option ℚ

/-- How `runtime_get_processor_speed_MHz` ends: it returns a value after `pclose(cmd)` on
the open stream, or it reaches the `pclose(cmd)` of label `done` with `cmd == NULL`, which
is undefined (the C library dereferences the stream) and from which it does not return. -/
inductive ProcessorSpeedResult where
  | returned (return_value : ℚ)
  | pclose_of_null
  deriving DecidableEq, Repr

/-- The function `runtime_get_processor_speed_MHz` (lines 102-127).  `fread` fills at most
`sizeof(buff) - 1 = 15` bytes.  When `popen` fails, `goto err` sets `return_value = -1` and
`goto done` then calls `pclose(NULL)`. -/
def runtime_get_processor_speed_MHz (probe : ProcessorSpeedProbe) : ProcessorSpeedResult :=
  match probe.popen_output with
  | none => .pclose_of_null
  | some output =>
    let buff := output.take 15
    let n := buff.length
    if n ≤ 0 then .returned (-1)
    else
      match probe.sscanf_f buff with
      | none => .returned (-1)
      | some processor_speed_MHz => .returned processor_speed_MHz

/-- The detection failed on an opened command: it gave no bytes, or its output did not parse
as a number. -/
def ProcessorSpeedProbe.fails_after_open (probe : ProcessorSpeedProbe) : Prop :=
  ∃ output, probe.popen_output = some output ∧
    (output = [] ∨ probe.sscanf_f (output.take 15) = none)

/-- Everything outside the program that `main` consults during startup: `argc`, `argv[1]`,
the speed probe, the return codes of the four `getrlimit` / `setrlimit` calls, the result of
`sysconf`, the value of `SLEDGE_SCHEDULER`, and the return code of `module_new_from_json`. -/
structure StartupEnv where
  argc : Int
  modules_file : String
  probe : ProcessorSpeedProbe
  getrlimit_data : Int
  setrlimit_data : Int
  getrlimit_nofile : Int
  setrlimit_nofile : Int
  sysconf_nprocessors_onln : Int
  getenv_SLEDGE_SCHEDULER : Option String
  module_new_from_json : Int

/-- The function `runtime_set_resource_limits_to_max` (lines 47-69): `exit(-1)` at the
first call that returns a negative code. -/
def runtime_set_resource_limits_to_max (env : StartupEnv) (st : RuntimeState) :
    Outcome RuntimeState :=
  if env.getrlimit_data < 0 then .exited (-1) st
  else if env.setrlimit_data < 0 then .exited (-1) st
  else if env.getrlimit_nofile < 0 then .exited (-1) st
  else if env.setrlimit_nofile < 0 then .exited (-1) st
  else .returned st

/-- The calls `main` makes after its argument check, in the order of lines 222-240. -/
inductive StartupStep where
  | get_processor_speed_MHz
  | set_resource_limits_to_max
  | allocate_available_cores
  | configure
  | runtime_init
  | module_new_from_json
  | listener_thread_init
  | start_runtime_worker_threads
  deriving DecidableEq, Repr

/-- The course of `main`: the calls it entered, in order, and how startup ended.  The outcome
`returned st` means every startup call returned and `runtime_start_runtime_worker_threads`
was entered with globals `st`. -/
structure StartupResult where
  steps : List StartupStep
  outcome : Outcome RuntimeState
  deriving DecidableEq, Repr

/-- The function `main` (lines 203-241).  When `runtime_get_processor_speed_MHz` does not
return, startup ends inside that first call.  The value it returns is stored and used
without any test; the floating-point product stored into
`software_interrupt_interval_duration_in_cycles` is not part of the state.  `runtime_initialize`, `module_new_from_json` and `listener_thread_initialize`
live outside `main.c` and appear as steps. -/
def main (NDEBUG : Bool) (WORKER_THREAD_CORE_COUNT : Nat) (env : StartupEnv) :
    StartupResult :=
  let st0 := RuntimeState.initial
  if env.argc ≠ 2 then { steps := [], outcome := .exited (-1) st0 }
  else
    match runtime_get_processor_speed_MHz env.probe with
    | .pclose_of_null =>
      { steps := [.get_processor_speed_MHz], outcome := .undefined_call "pclose(NULL)" st0 }
    | .returned return_value =>
      let st1 := { st0 with runtime_processor_speed_MHz := return_value }
      match runtime_set_resource_limits_to_max env st1 with
      | .returned st2 =>
        match runtime_allocate_available_cores NDEBUG WORKER_THREAD_CORE_COUNT
            env.sysconf_nprocessors_onln st2 with
        | .returned st3 =>
          match runtime_configure env.getenv_SLEDGE_SCHEDULER st3 with
          | .returned st4 =>
            if env.module_new_from_json ≠ 0 then
              { steps := [.get_processor_speed_MHz, .set_resource_limits_to_max,
                  .allocate_available_cores, .configure, .runtime_init, .module_new_from_json]
                outcome :=
                  .panicked ("failed to parse modules file[" ++ env.modules_file ++ "]\n") st4 }
            else
              { steps := [.get_processor_speed_MHz, .set_resource_limits_to_max,
                  .allocate_available_cores, .configure, .runtime_init, .module_new_from_json,
                  .listener_thread_init, .start_runtime_worker_threads]
                outcome := .returned st4 }
          | o =>
            { steps := [.get_processor_speed_MHz, .set_resource_limits_to_max,
                .allocate_available_cores, .configure]
              outcome := o }
        | o =>
          { steps := [.get_processor_speed_MHz, .set_resource_limits_to_max,
              .allocate_available_cores]
            outcome := o }
      | o => { steps := [.get_processor_speed_MHz, .set_resource_limits_to_max], outcome := o }

/-- The characters of `s` can be the content of a C string: none of them is the
terminator. -/
def c_string (s : String) : Prop :=
  ∀ c ∈ s.data, c.toNat ≠ 0

instance (s : String) : Decidable (c_string s) := by
  unfold c_string; infer_instance

/-! ## Definitions: strings in linear memory (`worker_thread.h`) -/

/-- Modelled from the spec: the linear memory of the current sandbox, "a private linear
memory region"; the declarations behind `get_memory_ptr_for_runtime` are not among the
sources.  `size` is its length in bytes and `byte a` the byte stored at offset `a`. -/
structure LinearMemory where
  size : Nat
  byte : Nat → Nat

/-- The result of an access to linear memory: a value, or a fault when the access falls
outside the memory. -/
inductive MemoryAccess (α : Type) where
  | ok (a : α)
  | fault
  deriving DecidableEq, Repr

/-- Modelled from the spec: `get_memory_ptr_for_runtime(offset, bounds_check)`, the external
translation of a WebAssembly offset into a runtime pointer.  A pointer into linear memory is
represented by its offset; the access faults when `bounds_check` bytes at `offset` do not
fit into the memory. -/
def get_memory_ptr_for_runtime (mem : LinearMemory) (offset bounds_check : Nat) :
    MemoryAccess Nat :=
  if offset + bounds_check ≤ mem.size then .ok offset else .fault

/-- The function `worker_thread_get_memory_ptr_void` (lines 23-27). -/
def worker_thread_get_memory_ptr_void (mem : LinearMemory) (offset bounds_check : Nat) :
    MemoryAccess Nat :=
  get_memory_ptr_for_runtime mem offset bounds_check

/-- The function `worker_thread_get_memory_character` (lines 34-38): element 0 behind the
pointer for `offset`. -/
def worker_thread_get_memory_character (mem : LinearMemory) (offset : Nat) :
    MemoryAccess Nat :=
  match get_memory_ptr_for_runtime mem offset 1 with
  | .ok p => .ok (mem.byte p)
  | .fault => .fault

/-- Conversion of a C `int` to `uint32_t`, as in `i < max_length` and `offset + i`. -/
def to_uint32 (i : Int) : Nat :=
  (i % 2 ^ 32).toNat

/-- The value a 32-bit `int` holds for the mathematical result `i` of an operation on it,
in two's complement: `i` itself inside the range of `int`, wrapped around outside. -/
def wrap_int32 (i : Int) : Int :=
  (i + 2 ^ 31) % 2 ^ 32 - 2 ^ 31

/-- The `for` loop of `worker_thread_get_memory_string` (lines 49-54) entered with counter
`i`; the first argument bounds the number of iterations and `none` means the bound was
reached.  `some (.ok none)` is the `NULL` result. -/
def worker_thread_get_memory_string_loop (mem : LinearMemory) (offset max_length : Nat) :
    Nat → Int → Option (MemoryAccess (Option Nat))
  | 0, _ => none
  | fuel + 1, i =>
    if to_uint32 i < max_length then
      match worker_thread_get_memory_character mem ((offset + to_uint32 i) % 2 ^ 32) with
      | .fault => some .fault
      | .ok c =>
        if c = 0 then
          match worker_thread_get_memory_ptr_void mem offset 1 with
          | .ok p => some (.ok (some p))
          | .fault => some .fault
        else worker_thread_get_memory_string_loop mem offset max_length fuel (wrap_int32 (i + 1))
    else some (.ok none)

/-- The function `worker_thread_get_memory_string` (lines 46-55): the loop from `i = 0`,
with room for the `max_length` iterations it can make and the final test. -/
def worker_thread_get_memory_string (mem : LinearMemory) (offset max_length : Nat) :
    Option (MemoryAccess (Option Nat)) :=
  worker_thread_get_memory_string_loop mem offset max_length (max_length + 1) 0

/-- Every offset the scan reads lies inside the memory: index `i` is read when no earlier
index holds a zero byte. -/
def scanned_in_bounds (mem : LinearMemory) (offset max_length : Nat) : Prop :=
  ∀ i, i < max_length → (∀ j, j < i → mem.byte ((offset + j) % 2 ^ 32) ≠ 0) →
    (offset + i) % 2 ^ 32 + 1 ≤ mem.size

/-! # Theorems -/

/-! ## Theorems: software interrupts -/

/-- Both calls leave the flag inside the set 0, 1 when it starts there. -/
theorem InterruptCall.run_flag (c : InterruptCall) (s : InterruptState)
    (h : s.software_interrupt_is_disabled = 0 ∨ s.software_interrupt_is_disabled = 1) :
    (c.run s).state.software_interrupt_is_disabled = 0 ∨
      (c.run s).state.software_interrupt_is_disabled = 1 := by
  cases c <;>
    simp only [InterruptCall.run, software_interrupt_disable, software_interrupt_enable,
      sync_bool_compare_and_swap] <;>
    rcases h with h | h <;> simp only [h] <;> (repeat' split) <;> simp_all [Outcome.state]

/-- The flag invariant along any sequence of calls. -/
theorem interrupt_states_flag (calls : List InterruptCall) :
    ∀ s : InterruptState,
      (s.software_interrupt_is_disabled = 0 ∨ s.software_interrupt_is_disabled = 1) →
      ∀ t ∈ interrupt_states calls s,
        t.software_interrupt_is_disabled = 0 ∨ t.software_interrupt_is_disabled = 1 := by
  induction calls with
  | nil =>
    intro s h t ht
    simp only [interrupt_states, List.mem_singleton] at ht
    subst ht; exact h
  | cons c cs ih =>
    intro s h t ht
    have hrun := InterruptCall.run_flag c s h
    simp only [interrupt_states] at ht
    split at ht
    · next s1 heq =>
      rw [heq] at hrun
      rcases List.mem_cons.mp ht with ht | ht
      · subst ht; exact h
      · exact ih s1 hrun t ht
    · next o _ =>
      simp only [List.mem_cons, List.mem_singleton, List.not_mem_nil, or_false] at ht
      rcases ht with ht | ht
      · subst ht; exact h
      · subst ht; exact hrun

/-- C1: `software_interrupt_disable` returns with the flag at 1 when the flag was 0, halts
the process with the "Recursive call" panic when the flag was 1, returns if and only if the
flag was 0, and in every case leaves the deferred counter and the `deferred_max` array (and
the worker index) as they were. -/
theorem software_interrupt_disable_contract (s : InterruptState) :
    (s.software_interrupt_is_disabled = 0 →
      software_interrupt_disable s =
        .returned { s with software_interrupt_is_disabled := 1 }) ∧
    (s.software_interrupt_is_disabled = 1 →
      software_interrupt_disable s =
        .panicked "Recursive call to software_interrupt_disable\n" s) ∧
    ((software_interrupt_disable s).completes = true ↔ s.software_interrupt_is_disabled = 0) ∧
    (software_interrupt_disable s).state.software_interrupt_deferred_sigalrm =
      s.software_interrupt_deferred_sigalrm ∧
    (software_interrupt_disable s).state.software_interrupt_deferred_sigalrm_max =
      s.software_interrupt_deferred_sigalrm_max ∧
    (software_interrupt_disable s).state.worker_thread_idx = s.worker_thread_idx := by
  obtain ⟨f, d, m, i⟩ := s
  by_cases h : f = 0
  · subst h
    simp [software_interrupt_disable, sync_bool_compare_and_swap, Outcome.completes,
      Outcome.state]
  · simp only [software_interrupt_disable, sync_bool_compare_and_swap, if_neg h,
      Outcome.completes, Outcome.state]
    simp [h]

/-- Witness for C1: both branches at concrete states. -/
theorem software_interrupt_disable_contract_witness :
    software_interrupt_disable ⟨0, 2, [7, 4], 1⟩ = .returned ⟨1, 2, [7, 4], 1⟩ ∧
    software_interrupt_disable ⟨1, 2, [7, 4], 1⟩ =
      .panicked "Recursive call to software_interrupt_disable\n" ⟨1, 2, [7, 4], 1⟩ :=
  ⟨(software_interrupt_disable_contract ⟨0, 2, [7, 4], 1⟩).1 rfl,
   (software_interrupt_disable_contract ⟨1, 2, [7, 4], 1⟩).2.1 rfl⟩

/-- C2: `software_interrupt_enable` never returns unless the flag was 1; with the worker
index inside the array it returns if and only if the flag was 1; whenever it returns the
flag is 0 (so `software_interrupt_is_enabled` answers 1); called with the flag at 0 it halts
with the "Recursive call" panic and the whole state, deferred counter and `deferred_max`
included, is as before; and along every sequence of disable/enable calls started with the
flag at 0 the flag is 0 or 1 in every state passed through. -/
theorem software_interrupt_enable_contract (s : InterruptState) :
    ((software_interrupt_enable s).completes = true → s.software_interrupt_is_disabled = 1) ∧
    (s.idx_in_bounds →
      ((software_interrupt_enable s).completes = true ↔ s.software_interrupt_is_disabled = 1)) ∧
    (∀ s1, software_interrupt_enable s = .returned s1 →
      s1.software_interrupt_is_disabled = 0 ∧ software_interrupt_is_enabled s1 = 1) ∧
    (s.software_interrupt_is_disabled = 0 →
      software_interrupt_enable s =
        .panicked "Recursive call to software_interrupt_enable\n" s) ∧
    (s.software_interrupt_is_disabled = 0 →
      ∀ calls : List InterruptCall, ∀ t ∈ interrupt_states calls s,
        t.software_interrupt_is_disabled = 0 ∨ t.software_interrupt_is_disabled = 1) := by
  refine ⟨?_, ?_, ?_, ?_, ?_⟩
  · obtain ⟨f, d, m, i⟩ := s
    by_cases h : f = 1
    · intro _; exact h
    · simp [software_interrupt_enable, sync_bool_compare_and_swap, h, Outcome.completes]
  · intro hb
    obtain ⟨f, d, m, i⟩ := s
    simp only [InterruptState.idx_in_bounds] at hb
    by_cases h : f = 1
    · subst h
      by_cases hd : 0 < d
      · simp [software_interrupt_enable, sync_bool_compare_and_swap, hd, hb, Outcome.completes]
      · simp [software_interrupt_enable, sync_bool_compare_and_swap, hd, Outcome.completes]
    · simp [software_interrupt_enable, sync_bool_compare_and_swap, h, Outcome.completes]
  · intro s1 hs
    obtain ⟨f, d, m, i⟩ := s
    by_cases h : f = 1
    · subst h
      simp only [software_interrupt_enable, sync_bool_compare_and_swap, if_true] at hs
      split at hs
      · split at hs
        · cases hs; simp [software_interrupt_is_enabled]
        · cases hs
      · cases hs; simp [software_interrupt_is_enabled]
    · simp [software_interrupt_enable, sync_bool_compare_and_swap, h] at hs
  · intro h0
    obtain ⟨f, d, m, i⟩ := s
    simp only at h0
    subst h0
    simp [software_interrupt_enable, sync_bool_compare_and_swap]
  · intro h0 calls t ht
    exact interrupt_states_flag calls s (Or.inl h0) t ht

/-- Witness for C2: a thread with two deferred signals leaves its critical section, and a
second `enable` halts. -/
theorem software_interrupt_enable_contract_witness :
    (software_interrupt_enable ⟨1, 2, [7, 4], 1⟩).completes = true ∧
    software_interrupt_enable ⟨0, 2, [7, 4], 1⟩ =
      .panicked "Recursive call to software_interrupt_enable\n" ⟨0, 2, [7, 4], 1⟩ ∧
    (∀ t ∈ interrupt_states [.disable, .enable, .enable, .disable] ⟨0, 2, [7, 4], 1⟩,
      t.software_interrupt_is_disabled = 0 ∨ t.software_interrupt_is_disabled = 1) :=
  ⟨((software_interrupt_enable_contract ⟨1, 2, [7, 4], 1⟩).2.1 (by decide)).mpr rfl,
   (software_interrupt_enable_contract ⟨0, 2, [7, 4], 1⟩).2.2.2.1 rfl,
   (software_interrupt_enable_contract ⟨0, 2, [7, 4], 1⟩).2.2.2.2 rfl _⟩

/-- C3: at a state whose slot already holds 5, `software_interrupt_enable` with 3 deferred
signals stores 3: the slot decreases, so the rule "store only if larger" (slot becomes the
maximum of its old value and the counter) does not hold of the code. -/
theorem software_interrupt_enable_overwrites_larger_max :
    software_interrupt_enable ⟨1, 3, [5, 0], 0⟩ = .returned ⟨0, 0, [3, 0], 0⟩ ∧
    InterruptState.deferred_max_slot ⟨1, 3, [5, 0], 0⟩ = some 5 ∧
    InterruptState.deferred_max_slot ⟨0, 0, [3, 0], 0⟩ = some 3 ∧
    ¬ (∀ s s1 : InterruptState, s.software_interrupt_is_disabled = 1 →
        0 < s.software_interrupt_deferred_sigalrm → s.idx_in_bounds →
        software_interrupt_enable s = .returned s1 →
        ∀ old, s.deferred_max_slot = some old →
          s1.deferred_max_slot = some (max old s.software_interrupt_deferred_sigalrm)) := by
  refine ⟨by decide, by decide, by decide, ?_⟩
  intro h
  have := h ⟨1, 3, [5, 0], 0⟩ ⟨0, 0, [3, 0], 0⟩ rfl (by decide) (by decide) (by decide) 5
    (by decide)
  revert this
  decide

/-- C4: for every state with the flag at 1, a non-negative deferred counter `k` and the
worker index inside the array, `software_interrupt_enable` returns with the flag at 0 and
the counter at 0; when `k > 0` the slot of the worker holds a value at least `k`; when
`k = 0` the array is unchanged; and in every case the array keeps its length and every
slot other than the worker's keeps its value. -/
theorem software_interrupt_enable_deferred (s : InterruptState)
    (hflag : s.software_interrupt_is_disabled = 1)
    (hk : 0 ≤ s.software_interrupt_deferred_sigalrm) (hb : s.idx_in_bounds) :
    ∃ s1, software_interrupt_enable s = .returned s1 ∧
      s1.software_interrupt_is_disabled = 0 ∧
      s1.software_interrupt_deferred_sigalrm = 0 ∧
      s1.worker_thread_idx = s.worker_thread_idx ∧
      (0 < s.software_interrupt_deferred_sigalrm →
        ∃ m, s1.deferred_max_slot = some m ∧ s.software_interrupt_deferred_sigalrm ≤ m) ∧
      (s.software_interrupt_deferred_sigalrm = 0 →
        s1.software_interrupt_deferred_sigalrm_max = s.software_interrupt_deferred_sigalrm_max) ∧
      s1.software_interrupt_deferred_sigalrm_max.length =
        s.software_interrupt_deferred_sigalrm_max.length ∧
      (∀ j : Nat, j ≠ s.worker_thread_idx.toNat →
        s1.software_interrupt_deferred_sigalrm_max[j]? =
          s.software_interrupt_deferred_sigalrm_max[j]?) := by
  obtain ⟨f, d, m, i⟩ := s
  simp only at hflag hk
  simp only [InterruptState.idx_in_bounds] at hb
  subst hflag
  by_cases hd : 0 < d
  · refine ⟨⟨0, 0, m.set i.toNat d, i⟩, ?_, rfl, rfl, rfl, ?_, ?_, ?_, ?_⟩
    · simp [software_interrupt_enable, sync_bool_compare_and_swap, hd, hb]
    · intro _
      refine ⟨d, ?_, le_refl d⟩
      simp [InterruptState.deferred_max_slot, hb.1, hb.2]
    · intro h0; simp only at h0; omega
    · simp
    · intro j hj
      simp only
      rw [List.getElem?_set_ne (Ne.symm hj)]
  · have hd0 : d = 0 := by omega
    subst hd0
    refine ⟨⟨0, 0, m, i⟩, ?_, rfl, rfl, rfl, ?_, ?_, rfl, ?_⟩
    · simp [software_interrupt_enable, sync_bool_compare_and_swap]
    · intro h; simp at h
    · intro _; rfl
    · intro j _; rfl

/-- Witness for C4: three deferred signals, worker 1 of 2. -/
theorem software_interrupt_enable_deferred_witness :
    ∃ s1, software_interrupt_enable ⟨1, 3, [7, 1], 1⟩ = .returned s1 ∧
      s1.software_interrupt_is_disabled = 0 ∧
      s1.software_interrupt_deferred_sigalrm = 0 ∧
      s1.worker_thread_idx = 1 ∧
      ((0 : Int) < 3 → ∃ m, s1.deferred_max_slot = some m ∧ (3 : Int) ≤ m) ∧
      ((3 : Int) = 0 → s1.software_interrupt_deferred_sigalrm_max = [7, 1]) ∧
      s1.software_interrupt_deferred_sigalrm_max.length = 2 ∧
      (∀ j : Nat, j ≠ 1 → s1.software_interrupt_deferred_sigalrm_max[j]? = [7, 1][j]?) :=
  software_interrupt_enable_deferred ⟨1, 3, [7, 1], 1⟩ rfl (by decide) (by decide)

/-! ## Theorems: global admission scheduler -/

/-- The minimum of a list is absent exactly for the empty list. -/
theorem priority_queue_minimum_eq_none {α : Type} (f : α → Nat) (l : List α) :
    priority_queue_minimum f l = none ↔ l = [] := by
  cases l with
  | nil => simp [priority_queue_minimum]
  | cons x xs =>
    simp only [priority_queue_minimum]
    split
    · simp
    · split <;> simp

/-- The minimum of a list belongs to it and no element has a smaller priority. -/
theorem priority_queue_minimum_spec {α : Type} (f : α → Nat) (l : List α) :
    ∀ x, priority_queue_minimum f l = some x → x ∈ l ∧ ∀ y ∈ l, f x ≤ f y := by
  induction l with
  | nil => intro x h; simp [priority_queue_minimum] at h
  | cons a as ih =>
    intro x h
    simp only [priority_queue_minimum] at h
    split at h
    · next hnone =>
      have has : as = [] := (priority_queue_minimum_eq_none f as).mp hnone
      cases h
      subst has
      simp
    · next y hy =>
      obtain ⟨hmem, hmin⟩ := ih y hy
      split at h
      · next hle =>
        cases h
        refine ⟨List.mem_cons_self _ _, ?_⟩
        intro z hz
        rcases List.mem_cons.mp hz with hz | hz
        · subst hz; exact le_refl _
        · exact le_trans hle (hmin z hz)
      · next hlt =>
        cases h
        refine ⟨List.mem_cons_of_mem _ hmem, ?_⟩
        intro z hz
        rcases List.mem_cons.mp hz with hz | hz
        · subst hz; omega
        · exact hmin z hz

/-- No scheduler call changes the priority function recorded at initialization. -/
theorem SchedulerCall.run_get_priority (q : priority_queue sandbox_request_t)
    (c : SchedulerCall) : (c.run q).get_priority = q.get_priority := by
  cases c with
  | add req =>
    simp only [SchedulerCall.run, sandbox_request_scheduler_ps_add, priority_queue_enqueue]
    split <;> rfl
  | remove =>
    simp only [SchedulerCall.run, sandbox_request_scheduler_ps_remove, priority_queue_dequeue]
    split <;> rfl

/-- The priority function is the one recorded at initialization after any calls. -/
theorem scheduler_run_get_priority (calls : List SchedulerCall) :
    ∀ q : priority_queue sandbox_request_t,
      (scheduler_run q calls).get_priority = q.get_priority := by
  induction calls with
  | nil => intro q; rfl
  | cons c cs ih =>
    intro q
    simp only [scheduler_run, List.foldl_cons]
    exact (ih (c.run q)).trans (SchedulerCall.run_get_priority q c)

/-- C5: for every queue type, every `priority_queue_enqueue` and every non-NULL request,
`sandbox_request_scheduler_ps_add` returns the request exactly when the enqueue returns
code 0 and `NULL` exactly when it returns any other code, and the queue is the one the
enqueue left; whenever the enqueue fails leaving the queue as it was, the result is `NULL`
with the queue unchanged; on the bounded queue of the spec this is what happens at
capacity. -/
theorem sandbox_request_scheduler_ps_add_contract {Q : Type}
    (enqueue : Q → sandbox_request_t → Int × Q) (q : Q) (req : sandbox_request_t) :
    ((sandbox_request_scheduler_ps_add enqueue q req).1 = some req ↔ (enqueue q req).1 = 0) ∧
    ((sandbox_request_scheduler_ps_add enqueue q req).1 = none ↔ (enqueue q req).1 ≠ 0) ∧
    (sandbox_request_scheduler_ps_add enqueue q req).2 = (enqueue q req).2 ∧
    ((enqueue q req).1 ≠ 0 → (enqueue q req).2 = q →
      sandbox_request_scheduler_ps_add enqueue q req = (none, q)) ∧
    (∀ pq : priority_queue sandbox_request_t, pq.capacity ≤ pq.items.length →
      sandbox_request_scheduler_ps_add priority_queue_enqueue pq req = (none, pq)) := by
  refine ⟨?_, ?_, ?_, ?_, ?_⟩
  · by_cases h : (enqueue q req).1 = 0 <;> simp [sandbox_request_scheduler_ps_add, h]
  · by_cases h : (enqueue q req).1 = 0 <;> simp [sandbox_request_scheduler_ps_add, h]
  · simp [sandbox_request_scheduler_ps_add]
  · intro h hq
    simp only [sandbox_request_scheduler_ps_add, if_neg h, hq]
  · intro pq hfull
    simp [sandbox_request_scheduler_ps_add, priority_queue_enqueue, hfull]

/-- Witness for C5: a queue of capacity 1 holding one request rejects a second one and keeps
its content; an empty one accepts it. -/
theorem sandbox_request_scheduler_ps_add_contract_witness :
    sandbox_request_scheduler_ps_add priority_queue_enqueue
        ⟨1, sandbox_request_get_priority, [⟨1, 100⟩]⟩ ⟨2, 10⟩ =
      (none, ⟨1, sandbox_request_get_priority, [⟨1, 100⟩]⟩) ∧
    (sandbox_request_scheduler_ps_add priority_queue_enqueue
        ⟨1, sandbox_request_get_priority, []⟩ ⟨2, 10⟩).1 = some ⟨2, 10⟩ :=
  ⟨(sandbox_request_scheduler_ps_add_contract priority_queue_enqueue
      ⟨1, sandbox_request_get_priority, [⟨1, 100⟩]⟩ ⟨2, 10⟩).2.2.2.2
      ⟨1, sandbox_request_get_priority, [⟨1, 100⟩]⟩ (by decide),
   (sandbox_request_scheduler_ps_add_contract priority_queue_enqueue
      ⟨1, sandbox_request_get_priority, []⟩ ⟨2, 10⟩).1.mpr rfl⟩

/-- C6: `sandbox_request_get_priority` maps every request to its `absolute_deadline`;
`sandbox_request_scheduler_ps_initialize` records that function on an empty queue; after any
sequence of add/remove calls, `sandbox_request_scheduler_ps_remove` returns `NULL` exactly
when no request is pending, and otherwise a pending request whose `absolute_deadline` is at
most that of every pending request, which it takes out of the queue; after adding requests
with deadlines 100, 10, 50 to a queue of capacity at least 3, removes return them in the
order 10, 50, 100 and then `NULL`. -/
theorem sandbox_request_scheduler_ps_remove_edf :
    (∀ r : sandbox_request_t, sandbox_request_get_priority r = r.absolute_deadline) ∧
    (∀ capacity : Nat,
      ( sandbox_request_scheduler_ps_initialize capacity).get_priority =
          sandbox_request_get_priority ∧
      ( sandbox_request_scheduler_ps_initialize capacity).items = []) ∧
    (∀ (capacity : Nat) (calls : List SchedulerCall),
      ((sandbox_request_scheduler_ps_remove priority_queue_dequeue
          (scheduler_run ( sandbox_request_scheduler_ps_initialize capacity) calls)).1 = none ↔
        (scheduler_run ( sandbox_request_scheduler_ps_initialize capacity) calls).items = []) ∧
      ∀ r, (sandbox_request_scheduler_ps_remove priority_queue_dequeue
          (scheduler_run ( sandbox_request_scheduler_ps_initialize capacity) calls)).1 = some r →
        r ∈ (scheduler_run ( sandbox_request_scheduler_ps_initialize capacity) calls).items ∧
        (∀ r1 ∈ (scheduler_run ( sandbox_request_scheduler_ps_initialize capacity) calls).items,
          r.absolute_deadline ≤ r1.absolute_deadline) ∧
        (sandbox_request_scheduler_ps_remove priority_queue_dequeue
          (scheduler_run ( sandbox_request_scheduler_ps_initialize capacity) calls)).2.items =
          (scheduler_run ( sandbox_request_scheduler_ps_initialize capacity) calls).items.erase
            r) ∧
    (∀ capacity : Nat, 3 ≤ capacity →
      scheduler_remove_many 4
        (scheduler_run ( sandbox_request_scheduler_ps_initialize capacity)
          [.add ⟨1, 100⟩, .add ⟨2, 10⟩, .add ⟨3, 50⟩]) =
        [some ⟨2, 10⟩, some ⟨3, 50⟩, some ⟨1, 100⟩, none]) := by
  refine ⟨fun _ => rfl, fun _ => ⟨rfl, rfl⟩, ?_, ?_⟩
  · intro capacity calls
    have hp := scheduler_run_get_priority calls
      ( sandbox_request_scheduler_ps_initialize capacity)
    generalize scheduler_run ( sandbox_request_scheduler_ps_initialize capacity) calls = q at hp
    have hp1 : q.get_priority = sandbox_request_get_priority := hp
    simp only [sandbox_request_scheduler_ps_remove, priority_queue_dequeue, hp1]
    constructor
    · rw [← priority_queue_minimum_eq_none sandbox_request_get_priority q.items]
      split <;> simp_all
    · intro r hr
      split at hr
      · cases hr
      · next x hx =>
        simp only [Option.some.injEq] at hr
        subst hr
        obtain ⟨hmem, hmin⟩ := priority_queue_minimum_spec _ _ x hx
        exact ⟨hmem, hmin, rfl⟩
  · intro capacity hcap
    have h0 : ¬ capacity ≤ 0 := by omega
    have h1 : ¬ capacity ≤ 1 := by omega
    have h2 : ¬ capacity ≤ 2 := by omega
    simp [scheduler_run, SchedulerCall.run, sandbox_request_scheduler_ps_initialize,
      priority_queue_initialize, sandbox_request_scheduler_ps_add, priority_queue_enqueue,
      scheduler_remove_many, sandbox_request_scheduler_ps_remove, priority_queue_dequeue,
      priority_queue_minimum, sandbox_request_get_priority, h0, h1, h2]

/-- Witness for C6: the example at capacity 8. -/
theorem sandbox_request_scheduler_ps_remove_edf_witness :
    scheduler_remove_many 4
      (scheduler_run ( sandbox_request_scheduler_ps_initialize 8)
        [.add ⟨1, 100⟩, .add ⟨2, 10⟩, .add ⟨3, 50⟩]) =
      [some ⟨2, 10⟩, some ⟨3, 50⟩, some ⟨1, 100⟩, none] :=
  sandbox_request_scheduler_ps_remove_edf.2.2.2 8 (by decide)

/-! ## Theorems: startup -/

/-- On terminator-free character lists `strcmp` is zero exactly for equal lists. -/
theorem strcmp_eq_zero_iff (a : List Char) :
    ∀ b : List Char, (∀ c ∈ a, c.toNat ≠ 0) → (∀ c ∈ b, c.toNat ≠ 0) →
      (strcmp a b = 0 ↔ a = b) := by
  induction a with
  | nil =>
    intro b _ hb
    cases b with
    | nil => simp [strcmp]
    | cons y ys =>
      have hy := hb y (List.mem_cons_self _ _)
      simp only [strcmp]
      constructor
      · intro h; omega
      · intro h; cases h
  | cons x xs ih =>
    intro b ha hb
    have hx := ha x (List.mem_cons_self _ _)
    cases b with
    | nil =>
      simp only [strcmp]
      constructor
      · intro h; omega
      · intro h; cases h
    | cons y ys =>
      simp only [strcmp]
      by_cases hxy : x = y
      · subst hxy
        simp only [if_true]
        rw [ih ys (fun c hc => ha c (List.mem_cons_of_mem _ hc))
          (fun c hc => hb c (List.mem_cons_of_mem _ hc))]
        simp
      · simp only [if_neg hxy]
        constructor
        · intro h
          exfalso
          apply hxy
          apply Char.ext
          apply UInt32.ext
          have : x.toNat = y.toNat := by omega
          simpa [Char.toNat, UInt32.toNat] using this
        · intro h
          cases h
          exact absurd rfl hxy

/-- On C strings `strcmp` is zero exactly for equal strings. -/
theorem strcmp_string_eq_zero_iff (a b : String) (ha : c_string a) (hb : c_string b) :
    strcmp a.data b.data = 0 ↔ a = b := by
  rw [strcmp_eq_zero_iff a.data b.data ha hb]
  constructor
  · intro h; exact String.ext h
  · intro h; rw [h]

/-- C7: for every value of `SLEDGE_SCHEDULER` (unset, or any C string), `runtime_configure`
selects FIFO when the variable is unset or is exactly "FIFO", selects EDF when it is exactly
"EDF", and for every other string halts through `panic` with the policy and the other
globals as they were; it returns if and only if the variable is unset, "FIFO" or "EDF". -/
theorem runtime_configure_policy (env : Option String) (st : RuntimeState)
    (hv : ∀ v, env = some v → c_string v) :
    (env = none ∨ env = some "FIFO" →
      runtime_configure env st =
        .returned { st with runtime_scheduler := .RUNTIME_SCHEDULER_FIFO }) ∧
    (env = some "EDF" →
      runtime_configure env st =
        .returned { st with runtime_scheduler := .RUNTIME_SCHEDULER_EDF }) ∧
    (∀ v, env = some v → v ≠ "FIFO" → v ≠ "EDF" →
      ∃ msg, runtime_configure env st = .panicked msg st) ∧
    ((runtime_configure env st).completes = true ↔
      env = none ∨ env = some "FIFO" ∨ env = some "EDF") := by
  have hE : c_string "EDF" := by decide
  have hF : c_string "FIFO" := by decide
  cases env with
  | none => simp [runtime_configure, strcmp, Outcome.completes]
  | some v =>
    have hc : c_string v := hv v rfl
    have h1 := strcmp_string_eq_zero_iff v "EDF" hc hE
    have h2 := strcmp_string_eq_zero_iff v "FIFO" hc hF
    by_cases hve : v = "EDF"
    · subst hve
      simp [runtime_configure, strcmp, Outcome.completes]
    · by_cases hvf : v = "FIFO"
      · subst hvf
        simp [runtime_configure, strcmp, Outcome.completes]
      · simp only [String.data] at h1 h2
        simp [runtime_configure, h1, h2, hve, hvf, Outcome.completes]

/-- Witness for C7: unset and "EDF" are accepted; the empty string, "fifo", "EDF " and
"FIFOX" halt. -/
theorem runtime_configure_policy_witness :
    runtime_configure none RuntimeState.initial =
      .returned { RuntimeState.initial with runtime_scheduler := .RUNTIME_SCHEDULER_FIFO } ∧
    runtime_configure (some "EDF") RuntimeState.initial =
      .returned { RuntimeState.initial with runtime_scheduler := .RUNTIME_SCHEDULER_EDF } ∧
    (∃ msg, runtime_configure (some "") RuntimeState.initial =
      .panicked msg RuntimeState.initial) ∧
    (∃ msg, runtime_configure (some "fifo") RuntimeState.initial =
      .panicked msg RuntimeState.initial) ∧
    (∃ msg, runtime_configure (some "EDF ") RuntimeState.initial =
      .panicked msg RuntimeState.initial) ∧
    (∃ msg, runtime_configure (some "FIFOX") RuntimeState.initial =
      .panicked msg RuntimeState.initial) :=
  ⟨(runtime_configure_policy none RuntimeState.initial (by intro v h; cases h)).1 (Or.inl rfl),
   (runtime_configure_policy (some "EDF") RuntimeState.initial
      (by intro v h; cases h; decide)).2.1 rfl,
   (runtime_configure_policy (some "") RuntimeState.initial
      (by intro v h; cases h; decide)).2.2.1 "" rfl (by decide) (by decide),
   (runtime_configure_policy (some "fifo") RuntimeState.initial
      (by intro v h; cases h; decide)).2.2.1 "fifo" rfl (by decide) (by decide),
   (runtime_configure_policy (some "EDF ") RuntimeState.initial
      (by intro v h; cases h; decide)).2.2.1 "EDF " rfl (by decide) (by decide),
   (runtime_configure_policy (some "FIFOX") RuntimeState.initial
      (by intro v h; cases h; decide)).2.2.1 "FIFOX" rfl (by decide) (by decide)⟩

/-- C8: with `WORKER_THREAD_CORE_COUNT = 4` and 3 online processors the function computes
`min (3 - 1) 4 = 2` workers and first worker processor 1, as its comment "just use what is
available" announces, and then, in a build with assertions, stops at the assertion of
line 89 instead of returning (only a build that defines `NDEBUG` returns there); so it is
not the case that it completes with `min (n - 1) WORKER_THREAD_CORE_COUNT` workers whenever
`n ≥ 2` processors are online. -/
theorem runtime_allocate_available_cores_assert_counterexample :
    runtime_allocate_available_cores false 4 3 RuntimeState.initial =
      .assertion_failed "runtime_worker_threads_count == WORKER_THREAD_CORE_COUNT"
        { RuntimeState.initial with
          runtime_total_online_processors := 3
          runtime_first_worker_processor := 1
          runtime_worker_threads_count := 2 } ∧
    runtime_allocate_available_cores true 4 3 RuntimeState.initial =
      .returned
        { RuntimeState.initial with
          runtime_total_online_processors := 3
          runtime_first_worker_processor := 1
          runtime_worker_threads_count := 2 } ∧
    ¬ (∀ (W n : Nat) (st : RuntimeState), n < 2 ^ 32 → 2 ≤ n →
        ∃ s1, runtime_allocate_available_cores false W n st = .returned s1 ∧
          s1.runtime_worker_threads_count = min (n - 1) W ∧
          s1.runtime_first_worker_processor = 1) := by
  refine ⟨by decide, by decide, ?_⟩
  intro h
  obtain ⟨s1, hs, _⟩ := h 4 3 RuntimeState.initial (by decide) (by decide)
  have e : runtime_allocate_available_cores false 4 ((3 : Nat) : Int) RuntimeState.initial =
      .assertion_failed "runtime_worker_threads_count == WORKER_THREAD_CORE_COUNT"
        { RuntimeState.initial with
          runtime_total_online_processors := 3
          runtime_first_worker_processor := 1
          runtime_worker_threads_count := 2 } := by decide
  rw [e] at hs
  cases hs

/-- With the assertion of line 89 compiled in, for every number `n` of online processors
(below `2 ^ 32`): with `n < 2` the function halts through `panic`; with `n ≥ 2` and
`n - 1 ≥ WORKER_THREAD_CORE_COUNT` it returns with
`WORKER_THREAD_CORE_COUNT = min (n - 1) WORKER_THREAD_CORE_COUNT` workers and first worker
processor 1; with `n ≥ 2` and `n - 1 < WORKER_THREAD_CORE_COUNT` it stops at the assertion.
Whenever it returns, the worker count is `min (n - 1) WORKER_THREAD_CORE_COUNT`, the first
worker processor is 1 and worker `i` is pinned to processor `1 + i`. -/
theorem runtime_allocate_available_cores_workers (W n : Nat) (st : RuntimeState)
    (hn : n < 2 ^ 32) :
    (n < 2 →
      runtime_allocate_available_cores false W n st =
        .panicked "Runtime requires at least two cores!"
          { st with runtime_total_online_processors := n }) ∧
    (2 ≤ n → W ≤ n - 1 →
      runtime_allocate_available_cores false W n st =
        .returned { st with
          runtime_total_online_processors := n
          runtime_first_worker_processor := 1
          runtime_worker_threads_count := W }) ∧
    (2 ≤ n → n - 1 < W →
      runtime_allocate_available_cores false W n st =
        .assertion_failed "runtime_worker_threads_count == WORKER_THREAD_CORE_COUNT"
          { st with
            runtime_total_online_processors := n
            runtime_first_worker_processor := 1
            runtime_worker_threads_count := n - 1 }) ∧
    ((runtime_allocate_available_cores false W n st).completes = true ↔ 2 ≤ n ∧ W ≤ n - 1) ∧
    (∀ s1, runtime_allocate_available_cores false W n st = .returned s1 →
      s1.runtime_worker_threads_count = min (n - 1) W ∧
      s1.runtime_first_worker_processor = 1 ∧
      ∀ i, i < s1.runtime_worker_threads_count →
        (runtime_worker_thread_processors s1)[i]? = some (1 + i)) := by
  have hmod : ((n : Int) % 4294967296).toNat = n := by omega
  have key1 : n < 2 →
      runtime_allocate_available_cores false W n st =
        .panicked "Runtime requires at least two cores!"
          { st with runtime_total_online_processors := n } := by
    intro h
    simp [runtime_allocate_available_cores, hmod, h]
  have key2 : 2 ≤ n → W ≤ n - 1 →
      runtime_allocate_available_cores false W n st =
        .returned { st with
          runtime_total_online_processors := n
          runtime_first_worker_processor := 1
          runtime_worker_threads_count := W } := by
    intro h2 hW
    have h2' : ¬ n < 2 := by omega
    simp [runtime_allocate_available_cores, hmod, h2', hW]
  have key3 : 2 ≤ n → n - 1 < W →
      runtime_allocate_available_cores false W n st =
        .assertion_failed "runtime_worker_threads_count == WORKER_THREAD_CORE_COUNT"
          { st with
            runtime_total_online_processors := n
            runtime_first_worker_processor := 1
            runtime_worker_threads_count := n - 1 } := by
    intro h2 hW
    have h2' : ¬ n < 2 := by omega
    have hW' : ¬ W ≤ n - 1 := by omega
    have hne : ¬ n - 1 = W := by omega
    simp [runtime_allocate_available_cores, hmod, h2', hW', hne]
  have cases3 : n < 2 ∨ (2 ≤ n ∧ W ≤ n - 1) ∨ (2 ≤ n ∧ n - 1 < W) := by omega
  refine ⟨key1, key2, key3, ?_, ?_⟩
  · rcases cases3 with h | ⟨h2, hW⟩ | ⟨h2, hW⟩
    · rw [key1 h]; simp [Outcome.completes]; omega
    · rw [key2 h2 hW]; simp [Outcome.completes, h2, hW]
    · rw [key3 h2 hW]; simp [Outcome.completes]; omega
  · intro s1 hs
    rcases cases3 with h | ⟨h2, hW⟩ | ⟨h2, hW⟩
    · rw [key1 h] at hs; cases hs
    · rw [key2 h2 hW] at hs
      cases hs
      refine ⟨(Nat.min_eq_right hW).symm, rfl, ?_⟩
      intro i hi
      simp only at hi
      have hlt : 1 + i < 4294967296 := by omega
      simp [runtime_worker_thread_processors, hi, Nat.mod_eq_of_lt hlt]
    · rw [key3 h2 hW] at hs; cases hs

/-- C9: when the command is opened but yields no bytes or output that does not parse,
`runtime_get_processor_speed_MHz` returns -1, yet `main` does not test the value: whenever
`argc = 2` and the command was opened it goes on to `runtime_set_resource_limits_to_max`,
and at an input where the command yields no bytes and every later call succeeds it runs all
of startup, through starting the listener and the worker threads, with
`runtime_processor_speed_MHz = -1`.  When `popen` itself fails the function does not return
-1: it reaches `pclose(NULL)` and startup ends inside that call. -/
theorem main_continues_after_processor_speed_failure :
    (∀ probe : ProcessorSpeedProbe, probe.fails_after_open →
      runtime_get_processor_speed_MHz probe = .returned (-1)) ∧
    (∀ (NDEBUG : Bool) (W : Nat) (env : StartupEnv), env.argc = 2 →
      env.probe.popen_output ≠ none →
      StartupStep.set_resource_limits_to_max ∈ (main NDEBUG W env).steps) ∧
    runtime_get_processor_speed_MHz ⟨some [], fun _ => none⟩ = .returned (-1) ∧
    main false 1 ⟨2, "modules.json", ⟨some [], fun _ => none⟩, 0, 0, 0, 0, 2, none, 0⟩ =
      { steps := [.get_processor_speed_MHz, .set_resource_limits_to_max,
          .allocate_available_cores, .configure, .runtime_init, .module_new_from_json,
          .listener_thread_init, .start_runtime_worker_threads]
        outcome := .returned
          { runtime_processor_speed_MHz := -1
            runtime_total_online_processors := 2
            runtime_worker_threads_count := 1
            runtime_first_worker_processor := 1
            runtime_scheduler := .RUNTIME_SCHEDULER_FIFO } } ∧
    (∀ (NDEBUG : Bool) (W : Nat) (env : StartupEnv), env.argc = 2 →
      env.probe.popen_output = none →
      runtime_get_processor_speed_MHz env.probe = .pclose_of_null ∧
      main NDEBUG W env =
        { steps := [.get_processor_speed_MHz]
          outcome := .undefined_call "pclose(NULL)" RuntimeState.initial }) := by
  refine ⟨?_, ?_, ?_, ?_, ?_⟩
  · intro probe hf
    obtain ⟨out, parse⟩ := probe
    obtain ⟨output, h, hcase⟩ := hf
    simp only at h hcase
    subst h
    rcases hcase with h | h
    · subst h
      rfl
    · simp only [runtime_get_processor_speed_MHz, h]
      split <;> rfl
  · intro NDEBUG W env hargc hopen
    obtain ⟨v, hv⟩ : ∃ v, runtime_get_processor_speed_MHz env.probe = .returned v := by
      cases hp : env.probe.popen_output with
      | none => exact absurd hp hopen
      | some output =>
        simp only [runtime_get_processor_speed_MHz, hp]
        split
        · exact ⟨_, rfl⟩
        · split <;> exact ⟨_, rfl⟩
    simp only [main, hargc, hv]
    simp only [ne_eq, not_true_eq_false, if_false]
    repeat' split
    all_goals simp
  · rfl
  · rfl
  · intro NDEBUG W env hargc hnone
    have hr : runtime_get_processor_speed_MHz env.probe = .pclose_of_null := by
      simp only [runtime_get_processor_speed_MHz, hnone]
    refine ⟨hr, ?_⟩
    simp only [main, hargc, hr]
    simp

/-! ## Theorems: strings in linear memory -/

/-- Incrementing the counter increments its unsigned reading, modulo `2 ^ 32`. -/
theorem to_uint32_wrap_int32_succ (i : Int) :
    to_uint32 (wrap_int32 (i + 1)) = (to_uint32 i + 1) % 2 ^ 32 := by
  unfold to_uint32 wrap_int32
  omega

/-- Inside the range of `int` the counter holds the incremented value itself: below
`2 ^ 31 - 1` iterations no wraparound takes place. -/
theorem wrap_int32_succ_of_lt (i : Int) (h0 : 0 ≤ i) (h1 : i + 1 < 2 ^ 31) :
    wrap_int32 (i + 1) = i + 1 := by
  unfold wrap_int32
  omega

/-- The loop entered at index `k` with enough room: it answers the pointer for `offset` when
a zero byte lies at some index from `k` on, and `NULL` when none does. -/
theorem worker_thread_get_memory_string_loop_spec (mem : LinearMemory)
    (offset max_length : Nat) (ho : offset < 2 ^ 32) (hm : max_length < 2 ^ 32)
    (hb : scanned_in_bounds mem offset max_length) :
    ∀ (n k : Nat) (i : Int), k + n = max_length → to_uint32 i = k →
      (∀ j, j < k → mem.byte ((offset + j) % 2 ^ 32) ≠ 0) →
      ((∃ j, k ≤ j ∧ j < max_length ∧ mem.byte ((offset + j) % 2 ^ 32) = 0) →
        worker_thread_get_memory_string_loop mem offset max_length (n + 1) i =
          some (.ok (some offset)) ∧
        worker_thread_get_memory_ptr_void mem offset 1 = .ok offset) ∧
      ((∀ j, k ≤ j → j < max_length → mem.byte ((offset + j) % 2 ^ 32) ≠ 0) →
        worker_thread_get_memory_string_loop mem offset max_length (n + 1) i =
          some (.ok none)) := by
  intro n
  induction n with
  | zero =>
    intro k i hk hi _
    have hnot : ¬ to_uint32 i < max_length := by omega
    constructor
    · rintro ⟨j, h1, h2, _⟩
      omega
    · intro _
      simp [worker_thread_get_memory_string_loop, hnot]
  | succ n ih =>
    intro k i hk hi hprev
    have hlt : to_uint32 i < max_length := by omega
    have hin : (offset + k) % 2 ^ 32 + 1 ≤ mem.size := hb k (by omega) hprev
    have hchar : worker_thread_get_memory_character mem ((offset + to_uint32 i) % 2 ^ 32) =
        .ok (mem.byte ((offset + k) % 2 ^ 32)) := by
      simp only [worker_thread_get_memory_character, get_memory_ptr_for_runtime, hi, if_pos hin]
    have hnext : to_uint32 (wrap_int32 (i + 1)) = k + 1 := by
      rw [to_uint32_wrap_int32_succ, hi]
      exact Nat.mod_eq_of_lt (by omega)
    have hoff : offset + 1 ≤ mem.size := by
      have h0 : offset % 2 ^ 32 + 1 ≤ mem.size := hb 0 (by omega) (by intro j hj; omega)
      rw [Nat.mod_eq_of_lt ho] at h0
      exact h0
    have hptr : worker_thread_get_memory_ptr_void mem offset 1 = .ok offset := by
      simp only [worker_thread_get_memory_ptr_void, get_memory_ptr_for_runtime, if_pos hoff]
    by_cases hz : mem.byte ((offset + k) % 2 ^ 32) = 0
    · constructor
      · intro _
        refine ⟨?_, hptr⟩
        simp only [worker_thread_get_memory_string_loop, if_pos hlt, hchar, hz, if_true, hptr]
      · intro hall
        exact absurd hz (hall k (le_refl k) (by omega))
    · have hstep : worker_thread_get_memory_string_loop mem offset max_length (n + 1 + 1) i =
          worker_thread_get_memory_string_loop mem offset max_length (n + 1)
            (wrap_int32 (i + 1)) := by
        simp only [worker_thread_get_memory_string_loop, if_pos hlt, hchar, if_neg hz]
      have hprev1 : ∀ j, j < k + 1 → mem.byte ((offset + j) % 2 ^ 32) ≠ 0 := by
        intro j hj
        by_cases hjk : j = k
        · subst hjk; exact hz
        · exact hprev j (by omega)
      obtain ⟨ih1, ih2⟩ := ih (k + 1) (wrap_int32 (i + 1)) (by omega) hnext hprev1
      rw [hstep]
      constructor
      · rintro ⟨j, h1, h2, h3⟩
        have hjk : j ≠ k := by
          intro h; subst h; exact hz h3
        exact ih1 ⟨j, by omega, h2, h3⟩
      · intro hall
        exact ih2 (fun j h1 h2 => hall j (by omega) h2)

/-- C10: for every linear memory, every 32-bit `offset` and every 32-bit `max_length` whose
scanned range stays inside the memory, `worker_thread_get_memory_string` returns (the
loop ends and no access faults); it returns the pointer for `offset` if and only if some index
`i < max_length` has a zero byte at offset `(offset + i) mod 2 ^ 32`, and `NULL` if and only
if there is none, so always `NULL` when `max_length = 0`; and a non-NULL result is the
pointer `worker_thread_get_memory_ptr_void(offset, 1)` wherever the zero byte was found. -/
theorem worker_thread_get_memory_string_spec (mem : LinearMemory) (offset max_length : Nat)
    (ho : offset < 2 ^ 32) (hm : max_length < 2 ^ 32)
    (hb : scanned_in_bounds mem offset max_length) :
    (worker_thread_get_memory_string mem offset max_length = some (.ok (some offset)) ∨
      worker_thread_get_memory_string mem offset max_length = some (.ok none)) ∧
    (worker_thread_get_memory_string mem offset max_length = some (.ok (some offset)) ↔
      ∃ i, i < max_length ∧ mem.byte ((offset + i) % 2 ^ 32) = 0) ∧
    (worker_thread_get_memory_string mem offset max_length = some (.ok none) ↔
      ¬ ∃ i, i < max_length ∧ mem.byte ((offset + i) % 2 ^ 32) = 0) ∧
    (max_length = 0 →
      worker_thread_get_memory_string mem offset max_length = some (.ok none)) ∧
    (∀ p, worker_thread_get_memory_string mem offset max_length = some (.ok (some p)) →
      worker_thread_get_memory_ptr_void mem offset 1 = .ok p) := by
  have hspec := worker_thread_get_memory_string_loop_spec mem offset max_length ho hm hb
    max_length 0 0 (by omega) (by simp [to_uint32]) (by intro j hj; omega)
  obtain ⟨hfound, hnone⟩ := hspec
  have hfound1 : (∃ i, i < max_length ∧ mem.byte ((offset + i) % 2 ^ 32) = 0) →
      worker_thread_get_memory_string mem offset max_length = some (.ok (some offset)) ∧
      worker_thread_get_memory_ptr_void mem offset 1 = .ok offset := by
    rintro ⟨i, h1, h2⟩
    exact hfound ⟨i, Nat.zero_le i, h1, h2⟩
  have hnone1 : (¬ ∃ i, i < max_length ∧ mem.byte ((offset + i) % 2 ^ 32) = 0) →
      worker_thread_get_memory_string mem offset max_length = some (.ok none) := by
    intro h
    exact hnone (fun j _ h2 h3 => h ⟨j, h2, h3⟩)
  by_cases hex : ∃ i, i < max_length ∧ mem.byte ((offset + i) % 2 ^ 32) = 0
  · obtain ⟨hr, hp⟩ := hfound1 hex
    refine ⟨Or.inl hr, ⟨fun _ => hex, fun _ => hr⟩, ?_, ?_, ?_⟩
    · constructor
      · intro h
        rw [hr] at h
        cases h
      · intro h
        exact absurd hex h
    · intro h0
      obtain ⟨i, h1, _⟩ := hex
      omega
    · intro p hpr
      rw [hr] at hpr
      cases hpr
      exact hp
  · have hr := hnone1 hex
    refine ⟨Or.inr hr, ?_, ⟨fun _ => hex, fun _ => hr⟩, fun _ => hr, ?_⟩
    · constructor
      · intro h
        rw [hr] at h
        cases h
      · intro h
        exact absurd h hex
    · intro p hpr
      rw [hr] at hpr
      cases hpr

/-- Witness for C10: in a full 4 GiB memory whose only zero byte is at offset 3, the scan
from offset `2 ^ 32 - 2` wraps around and finds it at index 5, returning the pointer for the
starting offset; in an 8-byte memory with its zero byte at offset 2, a scan of 2 bytes from
offset 0 returns `NULL`. -/
theorem worker_thread_get_memory_string_spec_witness :
    worker_thread_get_memory_string ⟨2 ^ 32, fun a => if a = 3 then 0 else 65⟩ 4294967294 10 =
      some (.ok (some 4294967294)) ∧
    worker_thread_get_memory_string ⟨8, fun a => if a = 2 then 0 else 104⟩ 0 2 =
      some (.ok none) :=
  ⟨(worker_thread_get_memory_string_spec ⟨2 ^ 32, fun a => if a = 3 then 0 else 65⟩
      4294967294 10 (by decide) (by decide)
      (by intro i _ _; simp only; omega)).2.1.mpr ⟨5, by decide, by decide⟩,
   (worker_thread_get_memory_string_spec ⟨8, fun a => if a = 2 then 0 else 104⟩
      0 2 (by decide) (by decide)
      (by intro i hi _; simp only; omega)).2.2.1.mpr
      (by
        rintro ⟨i, hi, hz⟩
        have h : i = 0 ∨ i = 1 := by omega
        rcases h with h | h <;> subst h <;> revert hz <;> decide)⟩

end Sledge
